import Mathlib

/-!
Verification of the EVE-3D-MAP interaction/navigation engine.

This development shallowly embeds the parts of the repository that the
checked properties talk about:

* the camera navigator of `useMapControl` (`focusSystem`, `focusRegion`,
  `easeInOutCubic` and the per-tick animation sampler);
* the selection/highlight state machine of the `EveMap3D` component
  (external region override prop, focus prop, click handling and the
  React effects that reconcile them);
* the selection state of the `useMapControl` hook (`selectSystem`);
* the label declutter engine (`detectLabelVisibility`, `checkLabelOverlap`
  and the spatial hash grid);
* the stargate connection builder of `Scene` and the instanced-mesh
  hit-test resolution of `SolarSystemPoints`.

JavaScript numbers are modelled as rationals (`ℚ`); the transcendental
functions `Math.sqrt`, `Math.sin 40°`, `Math.cos 40°` are abstracted as
explicit parameters so that every definition stays executable.  Integer
ids are modelled as `ℤ`.  JS `Set` objects are modelled as lists in
insertion order (only membership is ever consulted), and JS `Map`
construction from an entry list is modelled by `find?` over the reversed
entry list (later entries overwrite earlier ones).
-/

/-- A 3-component vector of JS numbers, modelled over `ℚ`. -/
@[ext]
structure Vec3 where
  x : ℚ
  y : ℚ
  z : ℚ
deriving DecidableEq, Repr

/-- `SolarSystem` record from `types.ts` (fields the core consults). -/
structure SolarSystem where
  _key : ℤ
  position : Vec3
  regionID : ℤ
  constellationID : ℤ
  securityStatus : ℚ
deriving DecidableEq, Repr

/-- A stargate record from `types.ts`: the owning system and the
destination system id (`stargate.destination.solarSystemID`). -/
structure Stargate where
  solarSystemID : ℤ
  destinationSolarSystemID : ℤ
deriving DecidableEq, Repr

/-- A camera pose: position plus orbit look-at target. -/
structure CameraPose where
  position : Vec3
  lookAtTarget : Vec3
deriving DecidableEq, Repr

/-- An animation session as started by `focusSystem` / `focusRegion` /
`resetCamera` in `useMapControl`: captured start pose, computed end pose
and the duration in milliseconds. -/
structure AnimSession where
  startPosition : Vec3
  startTarget : Vec3
  endPosition : Vec3
  endTarget : Vec3
  duration : ℚ
deriving DecidableEq, Repr

/-- The camera-facing state of `useMapControl`: the orbit-controls pose
and the at-most-one active animation session. -/
structure CamState where
  cameraPos : Vec3
  target : Vec3
  anim : Option AnimSession
deriving DecidableEq, Repr

/-- `easeInOutCubic` from `useMapControl`:
`t < 0.5 ? 4*t*t*t : 1 - Math.pow(-2*t+2, 3)/2`. -/
def easeInOutCubic (t : ℚ) : ℚ :=
  if t < 1/2 then 4 * t * t * t else 1 - (-2 * t + 2) ^ 3 / 2

/-- Per-component linear interpolation `start + (end - start) * eased`,
as written inline in every `animate` callback of `useMapControl`. -/
def lerpVec (a b : Vec3) (e : ℚ) : Vec3 :=
  ⟨a.x + (b.x - a.x) * e, a.y + (b.y - a.y) * e, a.z + (b.z - a.z) * e⟩

/-- One evaluation of the `animate` callback of `useMapControl` at a given
elapsed time: `progress = Math.min(elapsed / duration, 1)`,
`eased = easeInOutCubic(progress)`, then linear interpolation of the
look-at target and the camera position. -/
def animSample (sess : AnimSession) (elapsed : ℚ) : CameraPose :=
  let progress := min (elapsed / sess.duration) 1
  let eased := easeInOutCubic progress
  { position := lerpVec sess.startPosition sess.endPosition eased
    lookAtTarget := lerpVec sess.startTarget sess.endTarget eased }

/-- `useMapControl.focusSystem` (part of the camera navigator).  Looks up
the system, gathers all systems of its region, computes the region
centroid and bounding radius in render coordinates `(-x, -y, z)`, the
camera distance `max(r * 2.5, 7e16)`, the preserved horizontal heading
(with default `(0, 1)` when the horizontal offset is shorter than
`1e10`), and starts an animation session to the resulting pose.
`sqrtFn`, `sin40` and `cos40` abstract `Math.sqrt`, `Math.sin(40°)` and
`Math.cos(40°)`. -/
def focusSystem (sqrtFn : ℚ → ℚ) (sin40 cos40 : ℚ) (systems : List SolarSystem)
    (systemId : ℤ) (animationDuration : ℚ) (st : CamState) : CamState :=
  match systems.find? (fun s => s._key == systemId) with
  | none => st
  | some system =>
    let regionSystems := systems.filter (fun s => s.regionID == system.regionID)
    if regionSystems.length = 0 then st
    else
      let n : ℚ := (regionSystems.length : ℚ)
      let centerX := (regionSystems.foldl (fun acc s => acc + (-s.position.x)) 0) / n
      let centerY := (regionSystems.foldl (fun acc s => acc + (-s.position.y)) 0) / n
      let centerZ := (regionSystems.foldl (fun acc s => acc + s.position.z) 0) / n
      let maxDistance := regionSystems.foldl (fun m s =>
        let dx := -s.position.x - centerX
        let dy := -s.position.y - centerY
        let dz := s.position.z - centerZ
        let distance := sqrtFn (dx * dx + dy * dy + dz * dz)
        if distance > m then distance else m) 0
      let cameraDistance := max (maxDistance * (5/2)) (7 * 10 ^ 16)
      let targetCenter : Vec3 := ⟨-system.position.x, -system.position.y, system.position.z⟩
      let horizontalDirX := st.cameraPos.x - targetCenter.x
      let horizontalDirZ := st.cameraPos.z - targetCenter.z
      let horizontalLength := sqrtFn (horizontalDirX * horizontalDirX + horizontalDirZ * horizontalDirZ)
      let ndx := if horizontalLength < 10 ^ 10 then 0 else horizontalDirX / horizontalLength
      let ndz := if horizontalLength < 10 ^ 10 then 1 else horizontalDirZ / horizontalLength
      let verticalDistance := cameraDistance * sin40
      let horizontalDistance := cameraDistance * cos40
      let targetPosition : Vec3 :=
        ⟨targetCenter.x + ndx * horizontalDistance,
         targetCenter.y + verticalDistance,
         targetCenter.z + ndz * horizontalDistance⟩
      { st with anim := some ⟨st.cameraPos, st.target, targetPosition, targetCenter, animationDuration⟩ }

/-- `useMapControl.focusRegion`: same bounding computation over the
region's member systems, with the look-at target at the centroid. -/
def focusRegion (sqrtFn : ℚ → ℚ) (sin40 cos40 : ℚ) (systems : List SolarSystem)
    (regionId : ℤ) (animationDuration : ℚ) (st : CamState) : CamState :=
  let regionSystems := systems.filter (fun s => s.regionID == regionId)
  if regionSystems.length = 0 then st
  else
    let n : ℚ := (regionSystems.length : ℚ)
    let centerX := (regionSystems.foldl (fun acc s => acc + (-s.position.x)) 0) / n
    let centerY := (regionSystems.foldl (fun acc s => acc + (-s.position.y)) 0) / n
    let centerZ := (regionSystems.foldl (fun acc s => acc + s.position.z) 0) / n
    let maxDistance := regionSystems.foldl (fun m s =>
      let dx := -s.position.x - centerX
      let dy := -s.position.y - centerY
      let dz := s.position.z - centerZ
      let distance := sqrtFn (dx * dx + dy * dy + dz * dz)
      if distance > m then distance else m) 0
    let cameraDistance := max (maxDistance * (5/2)) (7 * 10 ^ 16)
    let targetCenter : Vec3 := ⟨centerX, centerY, centerZ⟩
    let horizontalDirX := st.cameraPos.x - targetCenter.x
    let horizontalDirZ := st.cameraPos.z - targetCenter.z
    let horizontalLength := sqrtFn (horizontalDirX * horizontalDirX + horizontalDirZ * horizontalDirZ)
    let ndx := if horizontalLength < 10 ^ 10 then 0 else horizontalDirX / horizontalLength
    let ndz := if horizontalLength < 10 ^ 10 then 1 else horizontalDirZ / horizontalLength
    let verticalDistance := cameraDistance * sin40
    let horizontalDistance := cameraDistance * cos40
    let targetPosition : Vec3 :=
      ⟨targetCenter.x + ndx * horizontalDistance,
       targetCenter.y + verticalDistance,
       targetCenter.z + ndz * horizontalDistance⟩
    { st with anim := some ⟨st.cameraPos, st.target, targetPosition, targetCenter, animationDuration⟩ }

/-- Interpolating with eased progress `1` lands exactly on the end value. -/
theorem lerpVec_one (a b : Vec3) : lerpVec a b 1 = b := by
  ext <;> simp [lerpVec]

/-- C6: for every fly-to animation with positive duration `D`, sampling
the animate callback at any elapsed time `≥ D` gives eased progress `1`
(the clamped progress reaches `1` and the cubic ease-in-out fixes `1`),
and the interpolated pose is exactly the computed end pose. -/
theorem animation_completes_at_duration (sess : AnimSession) (elapsed : ℚ)
    (hD : 0 < sess.duration) (hE : sess.duration ≤ elapsed) :
    min (elapsed / sess.duration) 1 = 1 ∧ easeInOutCubic 1 = 1 ∧
      animSample sess elapsed = ⟨sess.endPosition, sess.endTarget⟩ := by
  have hprog : min (elapsed / sess.duration) 1 = 1 := by
    refine min_eq_right ?_
    rw [le_div_iff₀ hD]
    simpa using hE
  have hease : easeInOutCubic 1 = 1 := by norm_num [easeInOutCubic]
  refine ⟨hprog, hease, ?_⟩
  simp only [animSample, hprog, hease, lerpVec_one]

/-- Closed witness for `animation_completes_at_duration`. -/
theorem animation_completes_at_duration_witness :
    min ((3000 : ℚ) / 1500) 1 = 1 ∧ easeInOutCubic 1 = 1 ∧
      animSample ⟨⟨0, 0, 0⟩, ⟨1, 1, 1⟩, ⟨2, 3, 4⟩, ⟨5, 6, 7⟩, 1500⟩ 3000 =
        ⟨⟨2, 3, 4⟩, ⟨5, 6, 7⟩⟩ :=
  animation_completes_at_duration ⟨⟨0, 0, 0⟩, ⟨1, 1, 1⟩, ⟨2, 3, 4⟩, ⟨5, 6, 7⟩, 1500⟩ 3000
    (by norm_num) (by norm_num)

/-- C7: `flyToSystem` with an id absent from the loaded system list and
`flyToRegion` with a region id whose member set is empty are silent
no-ops: the camera state (pose and active animation) is returned
unchanged and no animation session is started. -/
theorem focus_missing_target_noop (sqrtFn : ℚ → ℚ) (sin40 cos40 : ℚ)
    (systems : List SolarSystem) (systemId regionId : ℤ) (dur : ℚ) (st : CamState)
    (hsys : systems.find? (fun s => s._key == systemId) = none)
    (hreg : systems.filter (fun s => s.regionID == regionId) = []) :
    focusSystem sqrtFn sin40 cos40 systems systemId dur st = st ∧
      focusRegion sqrtFn sin40 cos40 systems regionId dur st = st := by
  constructor
  · simp [focusSystem, hsys]
  · simp [focusRegion, hreg]

/-- Closed witness for `focus_missing_target_noop`: one loaded system,
a fly-to to an unknown system id and to a memberless region id. -/
theorem focus_missing_target_noop_witness :
    focusSystem (fun q => q) (643/1000) (766/1000)
        [⟨7, ⟨1, 2, 3⟩, 10, 100, 1/2⟩] 8 1500 ⟨⟨0, 0, 0⟩, ⟨0, 0, 0⟩, none⟩ =
      ⟨⟨0, 0, 0⟩, ⟨0, 0, 0⟩, none⟩ ∧
    focusRegion (fun q => q) (643/1000) (766/1000)
        [⟨7, ⟨1, 2, 3⟩, 10, 100, 1/2⟩] 11 1500 ⟨⟨0, 0, 0⟩, ⟨0, 0, 0⟩, none⟩ =
      ⟨⟨0, 0, 0⟩, ⟨0, 0, 0⟩, none⟩ :=
  focus_missing_target_noop (fun q => q) (643/1000) (766/1000)
    [⟨7, ⟨1, 2, 3⟩, 10, 100, 1/2⟩] 8 11 1500 ⟨⟨0, 0, 0⟩, ⟨0, 0, 0⟩, none⟩
    (by decide) (by decide)

/-!
### Reference fly-to pose computations (C5)

`claimFlyToPose` follows the claim's words exactly: camera distance
`d = max(r * 2.5, dMin)` with `r` the maximum distance from the member
centroid to any member, and the camera placed at the 40° pitch at
distance `d` from the look-at target **along the horizontal heading from
the outgoing camera position to the new target**.  `specFlyToPose` is
the amended reference: the heading runs from the new target toward the
outgoing camera position (the direction the code preserves). -/

/-- Centroid of a member set in render coordinates `(-x, -y, z)`,
written as plain sum-over-length (spec wording). -/
def specCentroid (members : List SolarSystem) : Vec3 :=
  ⟨(members.map (fun s => -s.position.x)).sum / (members.length : ℚ),
   (members.map (fun s => -s.position.y)).sum / (members.length : ℚ),
   (members.map (fun s => s.position.z)).sum / (members.length : ℚ)⟩

/-- Bounding radius: maximum distance from `c` to any member (at least
`0`; distances produced by a true square root are nonnegative, so the
`0` base is neutral). -/
def specBoundingRadius (sqrtFn : ℚ → ℚ) (members : List SolarSystem) (c : Vec3) : ℚ :=
  (members.map (fun s =>
    sqrtFn ((-s.position.x - c.x) * (-s.position.x - c.x) +
            (-s.position.y - c.y) * (-s.position.y - c.y) +
            (s.position.z - c.z) * (s.position.z - c.z)))).foldr max 0

/-- End camera position per the claim's own words: heading projected
from the vector **from the outgoing camera position to the new
target**, default `(0, 1)` when its horizontal length is below `1e10`. -/
def claimFlyToPose (sqrtFn : ℚ → ℚ) (sin40 cos40 : ℚ) (members : List SolarSystem)
    (lookAt cam : Vec3) : Vec3 :=
  let c := specCentroid members
  let r := specBoundingRadius sqrtFn members c
  let d := max (r * (5/2)) (7 * 10 ^ 16)
  let hx := lookAt.x - cam.x
  let hz := lookAt.z - cam.z
  let len := sqrtFn (hx * hx + hz * hz)
  let nx := if len < 10 ^ 10 then 0 else hx / len
  let nz := if len < 10 ^ 10 then 1 else hz / len
  ⟨lookAt.x + nx * (d * cos40), lookAt.y + d * sin40, lookAt.z + nz * (d * cos40)⟩

/-- End camera position per the amended claim: heading projected from
the vector **from the new target toward the outgoing camera position**
(so the camera keeps its side of the target). -/
def specFlyToPose (sqrtFn : ℚ → ℚ) (sin40 cos40 : ℚ) (members : List SolarSystem)
    (lookAt cam : Vec3) : Vec3 :=
  let c := specCentroid members
  let r := specBoundingRadius sqrtFn members c
  let d := max (r * (5/2)) (7 * 10 ^ 16)
  let hx := cam.x - lookAt.x
  let hz := cam.z - lookAt.z
  let len := sqrtFn (hx * hx + hz * hz)
  let nx := if len < 10 ^ 10 then 0 else hx / len
  let nz := if len < 10 ^ 10 then 1 else hz / len
  ⟨lookAt.x + nx * (d * cos40), lookAt.y + d * sin40, lookAt.z + nz * (d * cos40)⟩

/-- C5 counterexample: with one loaded system at the origin and the
camera offset along `+x`, the fly-to animation the code starts ends at
`x = +5.362e16`, while the claim's reference computation (heading from
the outgoing camera position to the new target) gives `x = -5.362e16`:
the code preserves the camera's side of the target, the claim's heading
points the opposite way. -/
theorem flyto_heading_counterexample :
    (focusSystem (fun q => if q = 4 * 10 ^ 20 then 2 * 10 ^ 10 else 0)
        (643/1000) (766/1000) [⟨1, ⟨0, 0, 0⟩, 10, 0, 0⟩] 1 1500
        ⟨⟨2 * 10 ^ 10, 0, 0⟩, ⟨0, 0, 0⟩, none⟩).anim =
      some ⟨⟨2 * 10 ^ 10, 0, 0⟩, ⟨0, 0, 0⟩,
            ⟨5362 * 10 ^ 13, 4501 * 10 ^ 13, 0⟩, ⟨0, 0, 0⟩, 1500⟩ ∧
    claimFlyToPose (fun q => if q = 4 * 10 ^ 20 then 2 * 10 ^ 10 else 0)
        (643/1000) (766/1000)
        (List.filter (fun s => s.regionID == 10) [⟨1, ⟨0, 0, 0⟩, 10, 0, 0⟩])
        ⟨0, 0, 0⟩ ⟨2 * 10 ^ 10, 0, 0⟩ =
      ⟨-(5362 * 10 ^ 13), 4501 * 10 ^ 13, 0⟩ ∧
    (5362 * 10 ^ 13 : ℚ) ≠ -(5362 * 10 ^ 13) := by
  refine ⟨?_, ?_, by norm_num⟩
  · norm_num [focusSystem, List.find?, List.filter, List.foldl]
  · norm_num [claimFlyToPose, specCentroid, specBoundingRadius, List.filter,
      List.map, List.sum, List.foldr]

/-- Accumulating `acc + f s` over a list is the base plus the sum. -/
theorem foldl_add_map (f : SolarSystem → ℚ) (l : List SolarSystem) (a : ℚ) :
    l.foldl (fun acc s => acc + f s) a = a + (l.map f).sum := by
  induction l generalizing a with
  | nil => simp
  | cons hd tl ih => simp [ih, add_assoc]

/-- The `if distance > max then distance else max` update is a `max`. -/
theorem if_gt_eq_max (m d : ℚ) : (if d > m then d else m) = max m d := by
  rcases le_or_lt d m with h | h
  · rw [if_neg (not_lt.mpr h), max_eq_left h]
  · rw [if_pos h, max_eq_right h.le]

/-- Pulling one `max` operand out of a `foldr max` base. -/
theorem foldr_max_max (l : List ℚ) (a b : ℚ) :
    l.foldr max (max a b) = max a (l.foldr max b) := by
  induction l with
  | nil => rfl
  | cons c tl ih => simp [ih, max_left_comm]

/-- A left fold of running maxima equals a right fold of `max`. -/
theorem foldl_max_map (g : SolarSystem → ℚ) (l : List SolarSystem) (a : ℚ) :
    l.foldl (fun m s => max m (g s)) a = (l.map g).foldr max a := by
  induction l generalizing a with
  | nil => rfl
  | cons hd tl ih =>
    simp only [List.foldl_cons, List.map_cons, List.foldr_cons, ih]
    rw [max_comm a (g hd), foldr_max_max]

/-- The running-maximum loop of `focusSystem`/`focusRegion` computes the
maximum mapped distance. -/
theorem foldl_maxdist_eq (sqrtFn : ℚ → ℚ) (l : List SolarSystem) (cx cy cz : ℚ) :
    l.foldl (fun m s =>
      let dx := -s.position.x - cx
      let dy := -s.position.y - cy
      let dz := s.position.z - cz
      let distance := sqrtFn (dx * dx + dy * dy + dz * dz)
      if distance > m then distance else m) 0
    = (l.map (fun s =>
        sqrtFn ((-s.position.x - cx) * (-s.position.x - cx) +
          (-s.position.y - cy) * (-s.position.y - cy) +
          (s.position.z - cz) * (s.position.z - cz)))).foldr max 0 := by
  have h1 : (fun (m : ℚ) (s : SolarSystem) =>
      let dx := -s.position.x - cx
      let dy := -s.position.y - cy
      let dz := s.position.z - cz
      let distance := sqrtFn (dx * dx + dy * dy + dz * dz)
      if distance > m then distance else m)
    = fun (m : ℚ) (s : SolarSystem) =>
        max m (sqrtFn ((-s.position.x - cx) * (-s.position.x - cx) +
          (-s.position.y - cy) * (-s.position.y - cy) +
          (s.position.z - cz) * (s.position.z - cz))) := by
    funext m s
    exact if_gt_eq_max _ _
  rw [h1, foldl_max_map]

/-- C5 (amended): the end pose of every started fly-to equals the
reference computation with the heading taken from the new target toward
the outgoing camera position: look-at at the system's own position
(system focus) resp. the member centroid (region focus), and the camera
at the 40° pitch at distance `max(r * 2.5, 7e16)`. -/
theorem flyto_end_pose_matches_reference (sqrtFn : ℚ → ℚ) (sin40 cos40 : ℚ)
    (systems : List SolarSystem) (systemId regionId : ℤ) (dur : ℚ) (st : CamState)
    (system : SolarSystem)
    (hfind : systems.find? (fun s => s._key == systemId) = some system)
    (hreg : systems.filter (fun s => s.regionID == regionId) ≠ []) :
    (focusSystem sqrtFn sin40 cos40 systems systemId dur st).anim =
      some ⟨st.cameraPos, st.target,
        specFlyToPose sqrtFn sin40 cos40
          (systems.filter (fun s => s.regionID == system.regionID))
          ⟨-system.position.x, -system.position.y, system.position.z⟩ st.cameraPos,
        ⟨-system.position.x, -system.position.y, system.position.z⟩, dur⟩ ∧
    (focusRegion sqrtFn sin40 cos40 systems regionId dur st).anim =
      some ⟨st.cameraPos, st.target,
        specFlyToPose sqrtFn sin40 cos40
          (systems.filter (fun s => s.regionID == regionId))
          (specCentroid (systems.filter (fun s => s.regionID == regionId))) st.cameraPos,
        specCentroid (systems.filter (fun s => s.regionID == regionId)), dur⟩ := by
  constructor
  · have hmem : system ∈ systems := List.mem_of_find?_eq_some hfind
    have hmemf : system ∈ systems.filter (fun s => s.regionID == system.regionID) :=
      List.mem_filter.mpr ⟨hmem, by simp⟩
    have hlen : ¬((systems.filter (fun s => s.regionID == system.regionID)).length = 0) := by
      simpa [List.length_eq_zero] using List.ne_nil_of_mem hmemf
    simp only [focusSystem, hfind, if_neg hlen, specFlyToPose, specCentroid,
      specBoundingRadius, foldl_add_map, zero_add, foldl_maxdist_eq]
  · have hlen : ¬((systems.filter (fun s => s.regionID == regionId)).length = 0) := by
      simpa [List.length_eq_zero] using hreg
    simp only [focusRegion, if_neg hlen, specFlyToPose, specCentroid,
      specBoundingRadius, foldl_add_map, zero_add, foldl_maxdist_eq]

/-- Closed witness for `flyto_end_pose_matches_reference`. -/
theorem flyto_end_pose_matches_reference_witness :
    List.find? (fun s => s._key == 1) [(⟨1, ⟨0, 0, 0⟩, 10, 0, 0⟩ : SolarSystem)] =
      some ⟨1, ⟨0, 0, 0⟩, 10, 0, 0⟩ ∧
    List.filter (fun s => s.regionID == 10) [(⟨1, ⟨0, 0, 0⟩, 10, 0, 0⟩ : SolarSystem)] ≠ [] ∧
    ((focusSystem (fun q => q) (643/1000) (766/1000) [⟨1, ⟨0, 0, 0⟩, 10, 0, 0⟩] 1 1500
        ⟨⟨2 * 10 ^ 10, 0, 0⟩, ⟨0, 0, 0⟩, none⟩).anim =
      some ⟨⟨2 * 10 ^ 10, 0, 0⟩, ⟨0, 0, 0⟩,
        specFlyToPose (fun q => q) (643/1000) (766/1000)
          (List.filter (fun s => s.regionID == 10) [⟨1, ⟨0, 0, 0⟩, 10, 0, 0⟩])
          ⟨-(0 : ℚ), -(0 : ℚ), 0⟩ ⟨2 * 10 ^ 10, 0, 0⟩,
        ⟨-(0 : ℚ), -(0 : ℚ), 0⟩, 1500⟩ ∧
    (focusRegion (fun q => q) (643/1000) (766/1000) [⟨1, ⟨0, 0, 0⟩, 10, 0, 0⟩] 10 1500
        ⟨⟨2 * 10 ^ 10, 0, 0⟩, ⟨0, 0, 0⟩, none⟩).anim =
      some ⟨⟨2 * 10 ^ 10, 0, 0⟩, ⟨0, 0, 0⟩,
        specFlyToPose (fun q => q) (643/1000) (766/1000)
          (List.filter (fun s => s.regionID == 10) [⟨1, ⟨0, 0, 0⟩, 10, 0, 0⟩])
          (specCentroid (List.filter (fun s => s.regionID == 10) [⟨1, ⟨0, 0, 0⟩, 10, 0, 0⟩]))
          ⟨2 * 10 ^ 10, 0, 0⟩,
        specCentroid (List.filter (fun s => s.regionID == 10) [⟨1, ⟨0, 0, 0⟩, 10, 0, 0⟩]),
        1500⟩) :=
  ⟨by simp, by simp,
    flyto_end_pose_matches_reference (fun q => q) (643/1000) (766/1000)
      [⟨1, ⟨0, 0, 0⟩, 10, 0, 0⟩] 1 10 1500 ⟨⟨2 * 10 ^ 10, 0, 0⟩, ⟨0, 0, 0⟩, none⟩
      ⟨1, ⟨0, 0, 0⟩, 10, 0, 0⟩ (by simp) (by simp)⟩

/-!
### The `EveMap3D` component state machine (external override, clicks)

Shallow embedding of the stateful `EveMap3D` component of the library
(`part_002` generation): component state plus the three `useEffect`
blocks, each operation running the React commit to quiescence.  A
`useEffect` re-runs only when one of its dependencies changed
(`Object.is` comparison), so re-supplying an identical prop value runs
no effect, and `setState` with an identical value bails out of the
re-render.  The `externalHighlightedRegionId` prop is `Option (Option ℤ)`:
`none` models the prop being `undefined` (override unset), `some v`
models a supplied value `v` (which may itself be `null`). -/

/-- The declarative `focus` prop. -/
inductive FocusConfig where
  | system (targetId : ℤ)
  | region (targetId : ℤ)
deriving DecidableEq, Repr

/-- State of the `EveMap3D` component, plus the log of ids passed to the
host's `onSystemClick` callback. -/
structure EveMapState where
  selectedSystemId : Option ℤ
  highlightedSystemIds : List ℤ
  internalHighlightedRegionId : Option ℤ
  externalHighlightedRegionId : Option (Option ℤ)
  focus : Option FocusConfig
  clickedSystems : List ℤ
deriving DecidableEq, Repr

/-- Initial component state: nothing selected, no override, no focus. -/
def initialEveMapState : EveMapState := ⟨none, [], none, none, none, []⟩


/-- A pointer click on a system (`handleSystemClick` followed by the
React commit): the click callback fires upward unconditionally and
`selectedSystemId` is set; the `selectedSystemId` effect then runs (if
the selection actually changed) and early-returns when the external
override prop is supplied, or when a system focus is active; otherwise
it highlights the clicked system and derives the internal region from
the loaded system list. -/
def handleSystemClick (systems : List SolarSystem) (systemId : ℤ) (st : EveMapState) :
    EveMapState :=
  let st1 := { st with
    selectedSystemId := some systemId
    clickedSystems := st.clickedSystems ++ [systemId] }
  if st.selectedSystemId = some systemId then st1
  else if st1.externalHighlightedRegionId ≠ none then st1
  else match st1.focus with
    | some (FocusConfig.system _) => st1
    | _ =>
      { st1 with
        highlightedSystemIds := [systemId]
        internalHighlightedRegionId :=
          match systems.find? (fun s => s._key == systemId) with
          | some system => some system.regionID
          | none => st1.internalHighlightedRegionId }

/-- The host supplies a defined `highlightedRegionId` prop value `v`
(the external region override; `v` may be `null`).  If the value is
unchanged nothing re-runs; otherwise the override effect clears
selection, highlighted systems and the internal region, and the focus
effect (whose dependencies include the prop) re-runs in the same commit
and re-asserts selection for a system focus. -/
def setExternalRegionOverride (_systems : List SolarSystem) (v : Option ℤ)
    (st : EveMapState) : EveMapState :=
  if st.externalHighlightedRegionId = some v then
    { st with externalHighlightedRegionId := some v }
  else
    let st1 := { st with
      externalHighlightedRegionId := some v
      highlightedSystemIds := []
      selectedSystemId := none
      internalHighlightedRegionId := none }
    match st1.focus with
    | none => st1
    | some (FocusConfig.system tid) =>
        { st1 with selectedSystemId := some tid, highlightedSystemIds := [tid] }
    | some (FocusConfig.region _) =>
        { st1 with
          selectedSystemId := none
          internalHighlightedRegionId := none
          highlightedSystemIds := [] }

/-- Host-driven operations on the component state. -/
inductive MapOp where
  | select (systemId : ℤ)
  | setOverride (value : Option ℤ)
deriving DecidableEq, Repr

/-- Apply one operation. -/
def applyMapOp (systems : List SolarSystem) (st : EveMapState) : MapOp → EveMapState
  | MapOp.select systemId => handleSystemClick systems systemId st
  | MapOp.setOverride v => setExternalRegionOverride systems v st

/-- Run a call sequence left to right. -/
def runMapOps (systems : List SolarSystem) (ops : List MapOp) (st : EveMapState) :
    EveMapState :=
  ops.foldl (applyMapOp systems) st

/-- While the override prop is supplied, a click changes only the
selected id and the click log. -/
theorem handleSystemClick_override (systems : List SolarSystem) (i : ℤ)
    (st : EveMapState) (hov : st.externalHighlightedRegionId ≠ none) :
    handleSystemClick systems i st =
      { st with
        selectedSystemId := some i
        clickedSystems := st.clickedSystems ++ [i] } := by
  unfold handleSystemClick
  split
  · rfl
  · rw [if_pos]
    simpa using hov

/-- C2: once the external region override is set to a value `r` (not
unset), any sequence of subsequent `selectSystem` clicks leaves the
highlighted-system-id set unchanged, while every click still fires the
`onSystemClick` callback upward. -/
theorem override_suppresses_selection (systems : List SolarSystem)
    (st : EveMapState) (r : Option ℤ) (ops : List MapOp)
    (hov : st.externalHighlightedRegionId = some r)
    (hsel : ∀ op ∈ ops, ∃ i, op = MapOp.select i) :
    (runMapOps systems ops st).highlightedSystemIds = st.highlightedSystemIds ∧
    (runMapOps systems ops st).clickedSystems =
      st.clickedSystems ++ ops.filterMap
        (fun op => match op with | MapOp.select i => some i | _ => none) := by
  induction ops generalizing st with
  | nil => simp [runMapOps]
  | cons op rest ih =>
    obtain ⟨i, rfl⟩ := hsel op (List.mem_cons_self op rest)
    have hstep : applyMapOp systems st (MapOp.select i) =
        { st with
          selectedSystemId := some i
          clickedSystems := st.clickedSystems ++ [i] } := by
      simpa [applyMapOp] using
        handleSystemClick_override systems i st (by rw [hov]; simp)
    have hrest := ih
      { st with
        selectedSystemId := some i
        clickedSystems := st.clickedSystems ++ [i] }
      (by simpa using hov)
      (fun op hop => hsel op (List.mem_cons_of_mem _ hop))
    refine ⟨?_, ?_⟩
    · rw [runMapOps, List.foldl_cons, hstep]
      exact hrest.1
    · rw [runMapOps, List.foldl_cons, hstep]
      have h2 := hrest.2
      rw [runMapOps] at h2
      rw [h2]
      simp [List.filterMap_cons]

/-- Closed witness for `override_suppresses_selection`: override set to
region `3`, then two clicks; the highlighted set stays empty and both
clicks reach the callback log. -/
theorem override_suppresses_selection_witness :
    (runMapOps [] [MapOp.select 1, MapOp.select 2]
        { initialEveMapState with externalHighlightedRegionId := some (some 3) }
      ).highlightedSystemIds =
      ({ initialEveMapState with
          externalHighlightedRegionId := some (some 3) } : EveMapState).highlightedSystemIds ∧
    (runMapOps [] [MapOp.select 1, MapOp.select 2]
        { initialEveMapState with externalHighlightedRegionId := some (some 3) }
      ).clickedSystems =
      ({ initialEveMapState with
          externalHighlightedRegionId := some (some 3) } : EveMapState).clickedSystems ++
        [MapOp.select 1, MapOp.select 2].filterMap
          (fun op => match op with | MapOp.select i => some i | _ => none) :=
  override_suppresses_selection [] _ (some 3) _ rfl
    (by intro op hop; fin_cases hop <;> exact ⟨_, rfl⟩)

/-- C4 counterexample: set the override to region `10`, click system `5`
(the click sets `selectedSystemId` even though highlighting is
suppressed), then supply the override prop with the *same* value `10`
again.  The effect's dependency is unchanged, so nothing re-runs and the
selected system id survives — the claimed clearing does not happen. -/
theorem override_retransition_counterexample :
    (runMapOps [] [MapOp.setOverride (some 10), MapOp.select 5,
        MapOp.setOverride (some 10)] initialEveMapState).selectedSystemId = some 5 := by
  simp [runMapOps, applyMapOp, initialEveMapState, setExternalRegionOverride,
    handleSystemClick]

/-- C4 (amended): supplying the override prop with a *different* value
than it currently holds, while no focus prop is active, clears the
selected system id, the highlighted-system-id set and the internal
region; re-supplying the identical value is not observed as a
transition and clears nothing. -/
theorem override_transition_clears (systems : List SolarSystem)
    (st : EveMapState) (v : Option ℤ)
    (hchange : st.externalHighlightedRegionId ≠ some v)
    (hfocus : st.focus = none) :
    (setExternalRegionOverride systems v st).selectedSystemId = none ∧
    (setExternalRegionOverride systems v st).highlightedSystemIds = [] ∧
    (setExternalRegionOverride systems v st).internalHighlightedRegionId = none := by
  simp [setExternalRegionOverride, hchange, hfocus]

/-- Closed witness for `override_transition_clears`: the override is
first set to `10`, a click selects system `5`, then the override is
moved to `11`; everything is cleared. -/
theorem override_transition_clears_witness :
    (runMapOps [] [MapOp.setOverride (some 10), MapOp.select 5]
        initialEveMapState).externalHighlightedRegionId ≠ some (some 11) ∧
    (runMapOps [] [MapOp.setOverride (some 10), MapOp.select 5]
        initialEveMapState).focus = none ∧
    ((setExternalRegionOverride [] (some 11)
        (runMapOps [] [MapOp.setOverride (some 10), MapOp.select 5]
          initialEveMapState)).selectedSystemId = none ∧
     (setExternalRegionOverride [] (some 11)
        (runMapOps [] [MapOp.setOverride (some 10), MapOp.select 5]
          initialEveMapState)).highlightedSystemIds = [] ∧
     (setExternalRegionOverride [] (some 11)
        (runMapOps [] [MapOp.setOverride (some 10), MapOp.select 5]
          initialEveMapState)).internalHighlightedRegionId = none) :=
  ⟨by simp [runMapOps, applyMapOp, initialEveMapState, setExternalRegionOverride,
      handleSystemClick],
   by simp [runMapOps, applyMapOp, initialEveMapState, setExternalRegionOverride,
      handleSystemClick],
   override_transition_clears [] _ (some 11)
     (by simp [runMapOps, applyMapOp, initialEveMapState, setExternalRegionOverride,
        handleSystemClick])
     (by simp [runMapOps, applyMapOp, initialEveMapState, setExternalRegionOverride,
        handleSystemClick])⟩

/-!
### The `useMapControl` hook selection state (C3) -/

/-- Selection-facing state of the `useMapControl` hook. -/
structure MapControlState where
  selectedSystemId : Option ℤ
  highlightedRegionId : Option ℤ
  highlightedSystemIds : List ℤ
deriving DecidableEq, Repr

/-- `useMapControl.selectSystem`: selecting a system id highlights
exactly that system and, when the id resolves in the loaded system
list, highlights its region; selecting `null` clears selection and the
highlighted set.  (The call also starts a camera fly-to via
`focusSystem`, modelled separately on `CamState`.) -/
def selectSystem (systems : List SolarSystem) (systemId : Option ℤ)
    (st : MapControlState) : MapControlState :=
  match systemId with
  | some id =>
      { st with
        selectedSystemId := some id
        highlightedSystemIds := [id]
        highlightedRegionId :=
          match systems.find? (fun s => s._key == id) with
          | some system => some system.regionID
          | none => st.highlightedRegionId }
  | none =>
      { st with
        selectedSystemId := none
        highlightedSystemIds := [] }

/-- C3: for a system id present in the loaded list, `selectSystem`
leaves the highlighted-system-id set exactly `{id}` and the highlighted
region equal to the region of the resolved system. -/
theorem select_system_highlights (systems : List SolarSystem)
    (st : MapControlState) (id : ℤ) (system : SolarSystem)
    (hfind : systems.find? (fun s => s._key == id) = some system) :
    (selectSystem systems (some id) st).highlightedSystemIds = [id] ∧
    (selectSystem systems (some id) st).highlightedRegionId = some system.regionID := by
  simp [selectSystem, hfind]

/-- Closed witness for `select_system_highlights`. -/
theorem select_system_highlights_witness :
    List.find? (fun s => s._key == 7) [(⟨7, ⟨1, 2, 3⟩, 42, 0, 0⟩ : SolarSystem)] =
      some ⟨7, ⟨1, 2, 3⟩, 42, 0, 0⟩ ∧
    ((selectSystem [⟨7, ⟨1, 2, 3⟩, 42, 0, 0⟩] (some 7)
        ⟨none, none, []⟩).highlightedSystemIds = [7] ∧
     (selectSystem [⟨7, ⟨1, 2, 3⟩, 42, 0, 0⟩] (some 7)
        ⟨none, none, []⟩).highlightedRegionId = some (42 : ℤ)) :=
  ⟨by simp,
   select_system_highlights [⟨7, ⟨1, 2, 3⟩, 42, 0, 0⟩] ⟨none, none, []⟩ 7
     ⟨7, ⟨1, 2, 3⟩, 42, 0, 0⟩ (by simp)⟩

/-!
### Hit-test resolution over instanced-mesh buckets (C9)

`SolarSystemPoints.handleClick` in `EveMap3D.tsx` walks the style
buckets in order; for each it raycasts, takes the first intersection's
`instanceId`, and resolves the click only when that index is within the
bucket's member list, returning immediately; an out-of-range index
falls through to the next bucket. -/

/-- One style bucket as seen by the click handler: its ordered member
list and the raycast result against its mesh (`none` when the ray hits
nothing, `some i` for the first intersection's instance index). -/
structure PickBucket where
  systems : List SolarSystem
  hit : Option ℕ
deriving Repr

/-- The bucket loop of `handleClick`: the first in-range hit resolves to
the member at that index; everything else is a miss. -/
def resolveClick : List PickBucket → Option SolarSystem
  | [] => none
  | b :: rest =>
    match b.hit with
    | some instanceId =>
      if h : instanceId < b.systems.length then some (b.systems.get ⟨instanceId, h⟩)
      else resolveClick rest
    | none => resolveClick rest

/-- C9: a hit whose instance index is out of range for its bucket's
member list resolves no entity from that bucket and invokes no
system-click callback for it — the bucket is skipped exactly as if the
ray had missed. -/
theorem out_of_range_hit_is_miss (b : PickBucket) (rest : List PickBucket) (i : ℕ)
    (hhit : b.hit = some i) (hrange : b.systems.length ≤ i) :
    resolveClick (b :: rest) = resolveClick rest := by
  simp [resolveClick, hhit, Nat.not_lt.mpr hrange]

/-- Closed witness for `out_of_range_hit_is_miss`: a stale index `2`
against a one-element bucket is a miss; the next bucket resolves. -/
theorem out_of_range_hit_is_miss_witness :
    (PickBucket.mk [⟨1, ⟨0, 0, 0⟩, 10, 0, 0⟩] (some 2)).hit = some 2 ∧
    (PickBucket.mk [⟨1, ⟨0, 0, 0⟩, 10, 0, 0⟩] (some 2)).systems.length ≤ 2 ∧
    resolveClick [⟨[⟨1, ⟨0, 0, 0⟩, 10, 0, 0⟩], some 2⟩,
        ⟨[⟨3, ⟨0, 0, 0⟩, 11, 0, 0⟩], some 0⟩] =
      resolveClick [⟨[⟨3, ⟨0, 0, 0⟩, 11, 0, 0⟩], some 0⟩] :=
  ⟨rfl, by simp,
   out_of_range_hit_is_miss ⟨[⟨1, ⟨0, 0, 0⟩, 10, 0, 0⟩], some 2⟩
     [⟨[⟨3, ⟨0, 0, 0⟩, 11, 0, 0⟩], some 0⟩] 2 rfl (by simp)⟩

/-!
### Stargate connection list construction in `Scene` (C10)

The effect dedupes by the string key `` `${minId}-${maxId}` `` held in a
JS `Set`; decimal renderings joined by `-` are determined by the
`(min, max)` id pair, which is what the model stores.  `systemMap` is a
JS `Map` built from the full system list (later entries overwrite
earlier ones), and `systemSet` holds the keys of the filtered list. -/

/-- `systemMap.get`: last system in the list with the given `_key`. -/
def systemMapGet (systems : List SolarSystem) (k : ℤ) : Option SolarSystem :=
  systems.reverse.find? (fun s => s._key == k)

/-- Loop body of the effect, one stargate at a time; the accumulator
pairs the `connectionSet` of already-seen unordered id pairs with the
`newConnections` output list. -/
def connStep (systemSet : List ℤ) (systems : List SolarSystem)
    (acc : List (ℤ × ℤ) × List (SolarSystem × SolarSystem)) (sg : Stargate) :
    List (ℤ × ℤ) × List (SolarSystem × SolarSystem) :=
  match systemMapGet systems sg.solarSystemID,
        systemMapGet systems sg.destinationSolarSystemID with
  | some fromSystem, some toSystem =>
    if systemSet.contains fromSystem._key && systemSet.contains toSystem._key then
      let connectionKey := (min fromSystem._key toSystem._key,
                            max fromSystem._key toSystem._key)
      if acc.1.contains connectionKey then acc
      else (acc.1 ++ [connectionKey], acc.2 ++ [(fromSystem, toSystem)])
    else acc
  | _, _ => acc

/-- The stargate-connections effect body from `Scene.tsx`: resolve both
endpoints through `systemMap`, keep the connection only when both keys
are in the filtered set, and push it unless its unordered id pair was
already seen. -/
def buildStargateConnections (filteredSystems systems : List SolarSystem)
    (stargates : List Stargate) : List (SolarSystem × SolarSystem) :=
  (stargates.foldl (connStep (filteredSystems.map (fun s => s._key)) systems)
    (([] : List (ℤ × ℤ)), ([] : List (SolarSystem × SolarSystem)))).2

/-- The unordered id pair of a rendered connection. -/
def connKey (c : SolarSystem × SolarSystem) : ℤ × ℤ :=
  (min c.1._key c.2._key, max c.1._key c.2._key)

/-- Invariant carried through the stargate fold: output connections have
pairwise-distinct unordered id pairs, every output key was recorded in
the seen-set, and both endpoints lie in the filtered key set. -/
def ConnInv (systemSet : List ℤ)
    (acc : List (ℤ × ℤ) × List (SolarSystem × SolarSystem)) : Prop :=
  acc.2.Pairwise (fun c d => connKey c ≠ connKey d) ∧
  (∀ c ∈ acc.2, connKey c ∈ acc.1) ∧
  (∀ c ∈ acc.2, c.1._key ∈ systemSet ∧ c.2._key ∈ systemSet)

/-- One stargate step preserves the invariant. -/
theorem connStep_inv (systemSet : List ℤ) (systems : List SolarSystem)
    (acc : List (ℤ × ℤ) × List (SolarSystem × SolarSystem)) (sg : Stargate)
    (hinv : ConnInv systemSet acc) :
    ConnInv systemSet (connStep systemSet systems acc sg) := by
  obtain ⟨hpw, hkey, hmem⟩ := hinv
  unfold connStep
  rcases hf : systemMapGet systems sg.solarSystemID with _ | fromSystem
  · exact ⟨hpw, hkey, hmem⟩
  rcases ht : systemMapGet systems sg.destinationSolarSystemID with _ | toSystem
  · exact ⟨hpw, hkey, hmem⟩
  simp only
  split
  · rename_i hboth
    split
    · exact ⟨hpw, hkey, hmem⟩
    · rename_i hnew
      have hnewmem : (min fromSystem._key toSystem._key,
          max fromSystem._key toSystem._key) ∉ acc.1 := by
        intro hc
        exact hnew (by simpa using hc)
      refine ⟨?_, ?_, ?_⟩
      · rw [List.pairwise_append]
        refine ⟨hpw, List.pairwise_singleton _ _, ?_⟩
        intro c hc d hd
        rw [List.mem_singleton] at hd
        subst hd
        intro heq
        have hmem1 := hkey c hc
        rw [heq] at hmem1
        simp only [connKey] at hmem1
        exact hnewmem hmem1
      · intro c hc
        rcases List.mem_append.mp hc with h | h
        · exact List.mem_append_left _ (hkey c h)
        · rw [List.mem_singleton] at h
          subst h
          exact List.mem_append_right _ (by simp [connKey])
      · intro c hc
        rcases List.mem_append.mp hc with h | h
        · exact hmem c h
        · rw [List.mem_singleton] at h
          subst h
          rw [Bool.and_eq_true] at hboth
          exact ⟨by simpa using hboth.1, by simpa using hboth.2⟩
  · exact ⟨hpw, hkey, hmem⟩

/-- The fold preserves the invariant. -/
theorem connFold_inv (systemSet : List ℤ) (systems : List SolarSystem)
    (stargates : List Stargate)
    (acc : List (ℤ × ℤ) × List (SolarSystem × SolarSystem))
    (hinv : ConnInv systemSet acc) :
    ConnInv systemSet (stargates.foldl (connStep systemSet systems) acc) := by
  induction stargates generalizing acc with
  | nil => exact hinv
  | cons sg rest ih => exact ih _ (connStep_inv systemSet systems acc sg hinv)

/-- C10: in the stargate connection list built for rendering, every
unordered pair of system ids occurs at most once (whatever the number
or direction of stargates linking the two), and both endpoints of every
connection are systems of the current filtered (visible) set. -/
theorem stargate_connections_unique_and_filtered
    (filteredSystems systems : List SolarSystem) (stargates : List Stargate) :
    (buildStargateConnections filteredSystems systems stargates).Pairwise
      (fun c d => connKey c ≠ connKey d) ∧
    ∀ c ∈ buildStargateConnections filteredSystems systems stargates,
      (∃ s ∈ filteredSystems, s._key = c.1._key) ∧
      (∃ s ∈ filteredSystems, s._key = c.2._key) := by
  have h := connFold_inv (filteredSystems.map (fun s => s._key)) systems stargates
    ([], []) ⟨List.Pairwise.nil, by simp, by simp⟩
  refine ⟨h.1, fun c hc => ?_⟩
  have hm := h.2.2 c hc
  constructor
  · obtain ⟨s, hs, hks⟩ := List.mem_map.mp hm.1
    exact ⟨s, hs, hks⟩
  · obtain ⟨s, hs, hks⟩ := List.mem_map.mp hm.2
    exact ⟨s, hs, hks⟩

/-!
### Label declutter engine (`detectLabelVisibility`)

Embedding of the declutter module: `ProjectedLabel`, the
`SpatialHashGrid` (cells keyed by the integer pair behind the JS string
key `` `${x},${y}` ``), `checkLabelOverlap`, and the greedy visibility
loop.  The JS `Array.prototype.sort` with a comparator is modelled by
the stable `List.mergeSort` keeping `a` before `b` when
`sortFn a b ≤ 0`. -/

/-- A projected label: id, screen position (only `x`/`y` are consulted
by the overlap test), distance to camera (used by caller comparators)
and screen-space extent. -/
structure ProjectedLabel where
  id : ℤ
  screenPos : Vec3
  dist : ℚ
  screenWidth : ℚ
  screenHeight : ℚ
deriving DecidableEq, Repr

/-- Inclusive integer range `a..b`, empty when `b < a` (the nested `for`
loops of `getOccupiedCells`). -/
def intRange (a b : ℤ) : List ℤ :=
  (List.range (b - a + 1).toNat).map (fun (i : ℕ) => a + (i : ℤ))

/-- `SpatialHashGrid.getOccupiedCells`: every cell covered by the
label's screen AABB, from `floor(min/cellSize)` to `floor(max/cellSize)`
on each axis. -/
def getOccupiedCells (cellSize : ℚ) (label : ProjectedLabel) : List (ℤ × ℤ) :=
  let halfWidth := label.screenWidth / 2
  let halfHeight := label.screenHeight / 2
  let minX := label.screenPos.x - halfWidth
  let maxX := label.screenPos.x + halfWidth
  let minY := label.screenPos.y - halfHeight
  let maxY := label.screenPos.y + halfHeight
  (intRange ⌊minX / cellSize⌋ ⌊maxX / cellSize⌋).flatMap fun cx =>
    (intRange ⌊minY / cellSize⌋ ⌊maxY / cellSize⌋).map fun cy => (cx, cy)

/-- The grid: cells to the label ids stored there (a JS `Map` of `Set`s;
only membership is ever consulted). -/
abbrev Grid := ℤ × ℤ → List ℤ

/-- `SpatialHashGrid.add`. -/
def gridAdd (cellSize : ℚ) (g : Grid) (label : ProjectedLabel) : Grid :=
  fun c => if c ∈ getOccupiedCells cellSize label then g c ++ [label.id] else g c

/-- `SpatialHashGrid.getPotentialCollisions`: ids found in the cells the
label covers. -/
def getPotentialCollisions (cellSize : ℚ) (g : Grid) (label : ProjectedLabel) :
    List ℤ :=
  (getOccupiedCells cellSize label).flatMap g

/-- `checkLabelOverlap`: strict screen-space AABB overlap test
`|Δx| < (wA+wB)/2 AND |Δy| < (hA+hB)/2`. -/
def checkLabelOverlap (a b : ProjectedLabel) : Bool :=
  decide (|a.screenPos.x - b.screenPos.x| < (a.screenWidth + b.screenWidth) / 2) &&
  decide (|a.screenPos.y - b.screenPos.y| < (a.screenHeight + b.screenHeight) / 2)

/-- `labelMap.get`: the JS `Map` built from the sorted entry list;
later entries overwrite earlier ones, hence `find?` over the reverse. -/
def labelMapGet (sortedLabels : List ProjectedLabel) (i : ℤ) :
    Option ProjectedLabel :=
  sortedLabels.reverse.find? (fun l => l.id == i)

/-- One iteration of the declutter loop: query the covered cells for
already-visible candidates, test the AABB against each, then either
skip the label or mark it visible and insert it into its cells. -/
def declutterStep (lm : ℤ → Option ProjectedLabel) (cellSize : ℚ)
    (st : List ℤ × Grid) (label : ProjectedLabel) : List ℤ × Grid :=
  let hasOverlap := (getPotentialCollisions cellSize st.2 label).any fun visibleId =>
    st.1.contains visibleId &&
      match lm visibleId with
      | some visibleLabel => checkLabelOverlap label visibleLabel
      | none => false
  if hasOverlap then st
  else (st.1 ++ [label.id], gridAdd cellSize st.2 label)

/-- `detectLabelVisibility`: sort by the caller's comparator, then run
the greedy loop over a fresh grid with cell size `0.15`; the returned
visible-id set is modelled as the list of ids in insertion order. -/
def detectLabelVisibility (labels : List ProjectedLabel)
    (sortFn : ProjectedLabel → ProjectedLabel → ℤ) : List ℤ :=
  if labels.isEmpty then []
  else
    let sortedLabels := labels.mergeSort (fun a b => decide (sortFn a b ≤ 0))
    (sortedLabels.foldl (declutterStep (labelMapGet sortedLabels) (15/100))
      ([], fun _ => [])).1

/-- Membership in the inclusive integer range. -/
theorem mem_intRange {a b c : ℤ} : c ∈ intRange a b ↔ a ≤ c ∧ c ≤ b := by
  unfold intRange
  rw [List.mem_map]
  constructor
  · rintro ⟨i, hi, rfl⟩
    rw [List.mem_range] at hi
    omega
  · rintro ⟨h1, h2⟩
    refine ⟨(c - a).toNat, ?_, ?_⟩
    · rw [List.mem_range]
      omega
    · omega

/-- Cell membership in terms of the per-axis floor bounds. -/
theorem mem_getOccupiedCells {cellSize : ℚ} {label : ProjectedLabel} {c : ℤ × ℤ} :
    c ∈ getOccupiedCells cellSize label ↔
      (⌊(label.screenPos.x - label.screenWidth / 2) / cellSize⌋ ≤ c.1 ∧
        c.1 ≤ ⌊(label.screenPos.x + label.screenWidth / 2) / cellSize⌋) ∧
      (⌊(label.screenPos.y - label.screenHeight / 2) / cellSize⌋ ≤ c.2 ∧
        c.2 ≤ ⌊(label.screenPos.y + label.screenHeight / 2) / cellSize⌋) := by
  obtain ⟨cx, cy⟩ := c
  simp only [getOccupiedCells, List.mem_flatMap, List.mem_map, mem_intRange,
    Prod.mk.injEq]
  constructor
  · rintro ⟨x, hx, y, hy, rfl, rfl⟩
    exact ⟨hx, hy⟩
  · rintro ⟨hx, hy⟩
    exact ⟨cx, hx, cy, hy, rfl, rfl⟩

/-- Two overlapping closed segments share a point. -/
theorem overlap_segment (ax aw bx bw : ℚ) (haw : 0 ≤ aw) (hbw : 0 ≤ bw)
    (h : |ax - bx| < (aw + bw) / 2) :
    ∃ q : ℚ, ax - aw / 2 ≤ q ∧ q ≤ ax + aw / 2 ∧ bx - bw / 2 ≤ q ∧ q ≤ bx + bw / 2 := by
  rw [abs_lt] at h
  refine ⟨max (ax - aw / 2) (bx - bw / 2), le_max_left _ _, ?_, le_max_right _ _, ?_⟩
  · exact max_le (by linarith) (by linarith)
  · exact max_le (by linarith) (by linarith)

/-- Dividing by a positive cell size and flooring is monotone. -/
theorem floor_div_mono {cellSize q r : ℚ} (hcs : 0 < cellSize) (h : q ≤ r) :
    ⌊q / cellSize⌋ ≤ ⌊r / cellSize⌋ :=
  Int.floor_le_floor (by exact (div_le_div_iff_of_pos_right hcs).mpr h)

/-- The AABB overlap test is symmetric. -/
theorem checkLabelOverlap_symm (a b : ProjectedLabel) :
    checkLabelOverlap a b = checkLabelOverlap b a := by
  simp only [checkLabelOverlap, abs_sub_comm a.screenPos.x, abs_sub_comm a.screenPos.y,
    add_comm a.screenWidth, add_comm a.screenHeight]

/-- Overlapping labels with nonnegative extents cover a common cell. -/
theorem overlap_shares_cell {cellSize : ℚ} (hcs : 0 < cellSize) {a b : ProjectedLabel}
    (haw : 0 ≤ a.screenWidth) (hah : 0 ≤ a.screenHeight)
    (hbw : 0 ≤ b.screenWidth) (hbh : 0 ≤ b.screenHeight)
    (hov : checkLabelOverlap a b = true) :
    ∃ c, c ∈ getOccupiedCells cellSize a ∧ c ∈ getOccupiedCells cellSize b := by
  rw [checkLabelOverlap, Bool.and_eq_true, decide_eq_true_eq, decide_eq_true_eq] at hov
  obtain ⟨qx, hqx1, hqx2, hqx3, hqx4⟩ :=
    overlap_segment a.screenPos.x a.screenWidth b.screenPos.x b.screenWidth haw hbw hov.1
  obtain ⟨qy, hqy1, hqy2, hqy3, hqy4⟩ :=
    overlap_segment a.screenPos.y a.screenHeight b.screenPos.y b.screenHeight hah hbh hov.2
  refine ⟨(⌊qx / cellSize⌋, ⌊qy / cellSize⌋), ?_, ?_⟩
  · exact mem_getOccupiedCells.mpr
      ⟨⟨floor_div_mono hcs hqx1, floor_div_mono hcs hqx2⟩,
       ⟨floor_div_mono hcs hqy1, floor_div_mono hcs hqy2⟩⟩
  · exact mem_getOccupiedCells.mpr
      ⟨⟨floor_div_mono hcs hqx3, floor_div_mono hcs hqx4⟩,
       ⟨floor_div_mono hcs hqy3, floor_div_mono hcs hqy4⟩⟩

/-- A successful `labelMap` lookup returns a member with the looked-up id. -/
theorem labelMapGet_mem {L : List ProjectedLabel} {i : ℤ} {m : ProjectedLabel}
    (h : labelMapGet L i = some m) : m ∈ L ∧ m.id = i := by
  unfold labelMapGet at h
  have h1 := List.mem_of_find?_eq_some h
  have h2 := List.find?_some h
  exact ⟨List.mem_reverse.mp h1, by simpa using h2⟩

/-- With pairwise-distinct ids, the `labelMap` lookup of a member's id
returns exactly that member. -/
theorem labelMapGet_of_nodup {L : List ProjectedLabel}
    (hnd : (L.map (fun l => l.id)).Nodup) {l : ProjectedLabel} (hl : l ∈ L) :
    labelMapGet L l.id = some l := by
  rcases hfind : labelMapGet L l.id with _ | m
  · unfold labelMapGet at hfind
    have := List.find?_eq_none.mp hfind l (List.mem_reverse.mpr hl)
    simp at this
  · obtain ⟨hm, hid⟩ := labelMapGet_mem hfind
    have heq : m = l :=
      List.inj_on_of_nodup_map hnd hm hl hid
    rw [← heq]

/-- Invariant of the greedy declutter loop, relative to the full sorted
list `L`: every visible id resolves in the label map and occupies all
its cells in the grid, and no two distinct visible ids overlap. -/
def DeclutterInv (cellSize : ℚ) (L : List ProjectedLabel) (st : List ℤ × Grid) : Prop :=
  (∀ i ∈ st.1, ∃ m, labelMapGet L i = some m ∧
    ∀ c ∈ getOccupiedCells cellSize m, i ∈ st.2 c) ∧
  (∀ i ∈ st.1, ∀ j ∈ st.1, i ≠ j →
    ∀ mi mj, labelMapGet L i = some mi → labelMapGet L j = some mj →
      checkLabelOverlap mi mj = false)

/-- One declutter iteration preserves the invariant (this is where the
spatial hash is shown not to miss any overlap: an overlapping visible
label shares a cell with the candidate, so it is among the potential
collisions the loop tested). -/
theorem declutterStep_inv {cellSize : ℚ} (hcs : 0 < cellSize)
    {L : List ProjectedLabel}
    (hdims : ∀ l ∈ L, 0 ≤ l.screenWidth ∧ 0 ≤ l.screenHeight)
    (hnd : (L.map (fun l => l.id)).Nodup)
    {label : ProjectedLabel} (hl : label ∈ L)
    {st : List ℤ × Grid} (hinv : DeclutterInv cellSize L st) :
    DeclutterInv cellSize L (declutterStep (labelMapGet L) cellSize st label) := by
  obtain ⟨hI1, hI2⟩ := hinv
  by_cases hov : ((getPotentialCollisions cellSize st.2 label).any fun visibleId =>
      st.1.contains visibleId &&
        match labelMapGet L visibleId with
        | some visibleLabel => checkLabelOverlap label visibleLabel
        | none => false) = true
  · have hres : declutterStep (labelMapGet L) cellSize st label = st := by
      simp only [declutterStep]
      rw [if_pos hov]
    rw [hres]
    exact ⟨hI1, hI2⟩
  · have hnov : ∀ i ∈ st.1, ∀ mi, labelMapGet L i = some mi →
        checkLabelOverlap label mi = false := by
      intro i hi mi hmi
      by_contra hovl
      rw [Bool.not_eq_false] at hovl
      obtain ⟨hmiL, hmiid⟩ := labelMapGet_mem hmi
      obtain ⟨hlw, hlh⟩ := hdims label hl
      obtain ⟨hmw, hmh⟩ := hdims mi hmiL
      obtain ⟨c, hcl, hcm⟩ := overlap_shares_cell hcs hlw hlh hmw hmh hovl
      obtain ⟨m, hm, hcells⟩ := hI1 i hi
      have hmeq : m = mi := by
        rw [hm] at hmi
        exact Option.some.inj hmi
      subst hmeq
      have hig : i ∈ st.2 c := hcells c hcm
      have hpot : i ∈ getPotentialCollisions cellSize st.2 label := by
        unfold getPotentialCollisions
        exact List.mem_flatMap.mpr ⟨c, hcl, hig⟩
      apply hov
      refine List.any_eq_true.mpr ⟨i, hpot, ?_⟩
      rw [Bool.and_eq_true]
      refine ⟨by simpa using hi, ?_⟩
      rw [hm]
      exact hovl
    have hres : declutterStep (labelMapGet L) cellSize st label =
        (st.1 ++ [label.id], gridAdd cellSize st.2 label) := by
      simp only [declutterStep]
      rw [if_neg hov]
    rw [hres]
    constructor
    · intro i hi
      rcases List.mem_append.mp hi with hio | hin
      · obtain ⟨m, hm, hcells⟩ := hI1 i hio
        refine ⟨m, hm, fun c hc => ?_⟩
        show i ∈ if c ∈ getOccupiedCells cellSize label
          then st.2 c ++ [label.id] else st.2 c
        split
        · exact List.mem_append_left _ (hcells c hc)
        · exact hcells c hc
      · rw [List.mem_singleton] at hin
        subst hin
        refine ⟨label, labelMapGet_of_nodup hnd hl, fun c hc => ?_⟩
        show label.id ∈ if c ∈ getOccupiedCells cellSize label
          then st.2 c ++ [label.id] else st.2 c
        rw [if_pos hc]
        exact List.mem_append_right _ (List.mem_singleton_self _)
    · intro i hi j hj hij mi mj hmi hmj
      rcases List.mem_append.mp hi with hio | hin <;>
        rcases List.mem_append.mp hj with hjo | hjn
      · exact hI2 i hio j hjo hij mi mj hmi hmj
      · rw [List.mem_singleton] at hjn
        subst hjn
        have hlk : labelMapGet L label.id = some label := labelMapGet_of_nodup hnd hl
        have hmjl : mj = label := by
          rw [hlk] at hmj
          exact (Option.some.inj hmj).symm
        subst hmjl
        rw [checkLabelOverlap_symm]
        exact hnov i hio mi hmi
      · rw [List.mem_singleton] at hin
        subst hin
        have hlk : labelMapGet L label.id = some label := labelMapGet_of_nodup hnd hl
        have hmil : mi = label := by
          rw [hlk] at hmi
          exact (Option.some.inj hmi).symm
        subst hmil
        exact hnov j hjo mj hmj
      · rw [List.mem_singleton] at hin hjn
        rw [hin] at hij
        rw [hjn] at hij
        exact absurd rfl hij

/-- The declutter fold preserves the invariant. -/
theorem declutterFold_inv {cellSize : ℚ} (hcs : 0 < cellSize)
    {L : List ProjectedLabel}
    (hdims : ∀ l ∈ L, 0 ≤ l.screenWidth ∧ 0 ≤ l.screenHeight)
    (hnd : (L.map (fun l => l.id)).Nodup)
    (processed : List ProjectedLabel) (hsub : ∀ l ∈ processed, l ∈ L)
    {st : List ℤ × Grid} (hinv : DeclutterInv cellSize L st) :
    DeclutterInv cellSize L
      (processed.foldl (declutterStep (labelMapGet L) cellSize) st) := by
  induction processed generalizing st with
  | nil => exact hinv
  | cons l rest ih =>
    exact ih (fun x hx => hsub x (List.mem_cons_of_mem _ hx))
      (declutterStep_inv hcs hdims hnd (hsub l (List.mem_cons_self _ _)) hinv)

/-- C1 (amended): for every label list with pairwise-distinct ids and
nonnegative screen extents, and every priority comparator, the visible
id set returned by `detectLabelVisibility` contains no two labels whose
screen AABBs overlap. -/
theorem declutter_visible_no_overlap (labels : List ProjectedLabel)
    (sortFn : ProjectedLabel → ProjectedLabel → ℤ)
    (hdims : ∀ l ∈ labels, 0 ≤ l.screenWidth ∧ 0 ≤ l.screenHeight)
    (hnd : (labels.map (fun l => l.id)).Nodup)
    (a b : ProjectedLabel) (ha : a ∈ labels) (hb : b ∈ labels)
    (hva : a.id ∈ detectLabelVisibility labels sortFn)
    (hvb : b.id ∈ detectLabelVisibility labels sortFn)
    (hab : a.id ≠ b.id) :
    checkLabelOverlap a b = false := by
  have hne : labels.isEmpty = false := by
    cases labels
    · cases ha
    · rfl
  simp only [detectLabelVisibility, hne, Bool.false_eq_true, if_false] at hva hvb
  have hperm : (labels.mergeSort (fun a b => decide (sortFn a b ≤ 0))).Perm labels :=
    List.mergeSort_perm labels _
  have hdimsL : ∀ l ∈ labels.mergeSort (fun a b => decide (sortFn a b ≤ 0)),
      0 ≤ l.screenWidth ∧ 0 ≤ l.screenHeight :=
    fun l hl => hdims l (hperm.mem_iff.mp hl)
  have hndL : ((labels.mergeSort (fun a b => decide (sortFn a b ≤ 0))).map
      (fun l => l.id)).Nodup := ((hperm.map _).nodup_iff).mpr hnd
  have hinv0 : DeclutterInv (15/100)
      (labels.mergeSort (fun a b => decide (sortFn a b ≤ 0))) ([], fun _ => []) :=
    ⟨by simp, by simp⟩
  have hinv := declutterFold_inv (by norm_num) hdimsL hndL
    (labels.mergeSort (fun a b => decide (sortFn a b ≤ 0))) (fun l hl => hl) hinv0
  exact hinv.2 a.id hva b.id hvb hab a b
    (labelMapGet_of_nodup hndL (hperm.mem_iff.mpr ha))
    (labelMapGet_of_nodup hndL (hperm.mem_iff.mpr hb))

/-- `List.any` only depends on the predicate's values on the list. -/
theorem list_any_congr {α : Type} (l : List α) (f g : α → Bool)
    (h : ∀ x ∈ l, f x = g x) : l.any f = l.any g := by
  induction l with
  | nil => rfl
  | cons x xs ih =>
    simp only [List.any_cons]
    rw [h x (List.mem_cons_self _ _), ih (fun y hy => h y (List.mem_cons_of_mem _ hy))]

/-- A declutter iteration depends on the label map only at the ids that
are already visible (the grid holds only visible ids, and the loop
skips non-visible candidates before looking anything up). -/
theorem declutterStep_congr (cellSize : ℚ) (lm1 lm2 : ℤ → Option ProjectedLabel)
    (st : List ℤ × Grid) (label : ProjectedLabel)
    (hagree : ∀ i ∈ st.1, lm1 i = lm2 i) :
    declutterStep lm1 cellSize st label = declutterStep lm2 cellSize st label := by
  simp only [declutterStep]
  have hany : ((getPotentialCollisions cellSize st.2 label).any fun visibleId =>
      st.1.contains visibleId && match lm1 visibleId with
        | some visibleLabel => checkLabelOverlap label visibleLabel
        | none => false) =
      ((getPotentialCollisions cellSize st.2 label).any fun visibleId =>
      st.1.contains visibleId && match lm2 visibleId with
        | some visibleLabel => checkLabelOverlap label visibleLabel
        | none => false) := by
    apply list_any_congr
    intro x _
    by_cases hm : st.1.contains x
    · rw [hagree x (by simpa using hm)]
    · rw [Bool.not_eq_true] at hm
      rw [hm]
      simp
  rw [hany]

/-- Visible ids survive a declutter iteration. -/
theorem declutterStep_fst_sub (lm : ℤ → Option ProjectedLabel) (cellSize : ℚ)
    (st : List ℤ × Grid) (label : ProjectedLabel) {i : ℤ} (hi : i ∈ st.1) :
    i ∈ (declutterStep lm cellSize st label).1 := by
  simp only [declutterStep]
  split
  · exact hi
  · exact List.mem_append_left _ hi

/-- A declutter iteration adds at most the processed label's id. -/
theorem declutterStep_fst_src (lm : ℤ → Option ProjectedLabel) (cellSize : ℚ)
    (st : List ℤ × Grid) (label : ProjectedLabel) {i : ℤ}
    (hi : i ∈ (declutterStep lm cellSize st label).1) : i ∈ st.1 ∨ i = label.id := by
  simp only [declutterStep] at hi
  split at hi
  · exact Or.inl hi
  · rcases List.mem_append.mp hi with h | h
    · exact Or.inl h
    · exact Or.inr (List.mem_singleton.mp h)

/-- Visible ids survive the whole declutter fold. -/
theorem declutterFold_fst_mono (lm : ℤ → Option ProjectedLabel) (cellSize : ℚ)
    (list : List ProjectedLabel) (st : List ℤ × Grid) {i : ℤ} (hi : i ∈ st.1) :
    i ∈ (list.foldl (declutterStep lm cellSize) st).1 := by
  induction list generalizing st with
  | nil => exact hi
  | cons l rest ih => exact ih _ (declutterStep_fst_sub _ _ _ _ hi)

/-- Every id visible after the fold was visible before or belongs to a
processed label. -/
theorem declutterFold_fst_src (lm : ℤ → Option ProjectedLabel) (cellSize : ℚ)
    (list : List ProjectedLabel) (st : List ℤ × Grid) {i : ℤ}
    (hi : i ∈ (list.foldl (declutterStep lm cellSize) st).1) :
    i ∈ st.1 ∨ ∃ l ∈ list, l.id = i := by
  induction list generalizing st with
  | nil => exact Or.inl hi
  | cons l rest ih =>
    rcases ih _ hi with h | ⟨m, hm, hid⟩
    · rcases declutterStep_fst_src _ _ _ _ h with h2 | h2
      · exact Or.inl h2
      · exact Or.inr ⟨l, List.mem_cons_self _ _, h2.symm⟩
    · exact Or.inr ⟨m, List.mem_cons_of_mem _ hm, hid⟩

/-- The declutter fold depends on the label map only at ids of the
initial state and of the processed labels. -/
theorem declutterFold_congr (cellSize : ℚ) (lm1 lm2 : ℤ → Option ProjectedLabel)
    (list : List ProjectedLabel) (st : List ℤ × Grid)
    (hagree : ∀ i, (i ∈ st.1 ∨ ∃ l ∈ list, l.id = i) → lm1 i = lm2 i) :
    list.foldl (declutterStep lm1 cellSize) st =
      list.foldl (declutterStep lm2 cellSize) st := by
  induction list generalizing st with
  | nil => rfl
  | cons l rest ih =>
    have hstep : declutterStep lm1 cellSize st l = declutterStep lm2 cellSize st l :=
      declutterStep_congr _ _ _ _ _ (fun i hi => hagree i (Or.inl hi))
    simp only [List.foldl_cons, hstep]
    apply ih
    intro i hi
    rcases hi with hi | ⟨m, hm, hid⟩
    · rcases declutterStep_fst_src _ _ _ _ hi with h | h
      · exact hagree i (Or.inl h)
      · exact hagree i (Or.inr ⟨l, List.mem_cons_self _ _, h.symm⟩)
    · exact hagree i (Or.inr ⟨m, List.mem_cons_of_mem _ hm, hid⟩)

/-- C8 (amended): with pairwise-distinct label ids, a label's visibility
decision depends only on the labels that precede it in the sorted
priority order: if the sorted input splits as `p ++ M :: q` with `L`
in the prefix `p` (so `M` has lower priority than `L`), and removing
`M` from the input sorts to `p ++ q`, then `L` visible on the full
input stays visible on the reduced input. -/
theorem declutter_prefix_monotone (labels labels2 : List ProjectedLabel)
    (sortFn : ProjectedLabel → ProjectedLabel → ℤ)
    (M Lb : ProjectedLabel) (p q : List ProjectedLabel)
    (hnd : (labels.map (fun l => l.id)).Nodup)
    (hsort : labels.mergeSort (fun a b => decide (sortFn a b ≤ 0)) = p ++ M :: q)
    (hsort2 : labels2.mergeSort (fun a b => decide (sortFn a b ≤ 0)) = p ++ q)
    (hLb : Lb ∈ p)
    (hvis : Lb.id ∈ detectLabelVisibility labels sortFn) :
    Lb.id ∈ detectLabelVisibility labels2 sortFn := by
  have hne1 : labels.isEmpty = false := by
    cases hl : labels with
    | nil =>
      rw [hl] at hsort
      simp at hsort
    | cons _ _ => rfl
  have hne2 : labels2.isEmpty = false := by
    cases hl : labels2 with
    | nil =>
      rw [hl] at hsort2
      simp only [List.mergeSort] at hsort2
      obtain ⟨hp, _⟩ := List.append_eq_nil.mp hsort2.symm
      rw [hp] at hLb
      cases hLb
    | cons _ _ => rfl
  have hperm1 := List.mergeSort_perm labels (fun a b => decide (sortFn a b ≤ 0))
  rw [hsort] at hperm1
  have hnd1 : ((p ++ M :: q).map (fun l => l.id)).Nodup :=
    ((hperm1.map _).nodup_iff).mpr hnd
  have hnd2 : ((p ++ q).map (fun l => l.id)).Nodup := by
    have hsub : List.Sublist ((p ++ q).map (fun l => l.id))
        ((p ++ M :: q).map (fun l => l.id)) :=
      List.Sublist.map _ ((List.sublist_cons_self M q).append_left p)
    exact hsub.nodup hnd1
  have hagree : ∀ l ∈ p ++ q,
      labelMapGet (p ++ M :: q) l.id = labelMapGet (p ++ q) l.id := by
    intro l hl
    have hl1 : l ∈ p ++ M :: q := by
      rcases List.mem_append.mp hl with h | h
      · exact List.mem_append_left _ h
      · exact List.mem_append_right _ (List.mem_cons_of_mem _ h)
    rw [labelMapGet_of_nodup hnd1 hl1, labelMapGet_of_nodup hnd2 hl]
  simp only [detectLabelVisibility, hne1, Bool.false_eq_true, if_false, hsort] at hvis
  simp only [detectLabelVisibility, hne2, Bool.false_eq_true, if_false, hsort2]
  rw [List.foldl_append] at hvis
  rw [List.foldl_append]
  have hpref : p.foldl (declutterStep (labelMapGet (p ++ M :: q)) (15/100))
        ([], fun _ => []) =
      p.foldl (declutterStep (labelMapGet (p ++ q)) (15/100)) ([], fun _ => []) := by
    apply declutterFold_congr
    intro i hi
    rcases hi with hi | ⟨l, hl, hid⟩
    · cases hi
    · subst hid
      exact hagree l (List.mem_append_left _ hl)
  have hLbpref : Lb.id ∈ (p.foldl (declutterStep (labelMapGet (p ++ M :: q)) (15/100))
      ([], fun _ => [])).1 := by
    rcases declutterFold_fst_src _ _ (M :: q) _ hvis with h | ⟨l, hl, hid⟩
    · exact h
    · exfalso
      have h1 : Lb.id ∈ p.map (fun l => l.id) := List.mem_map.mpr ⟨Lb, hLb, rfl⟩
      have h2 : Lb.id ∈ (M :: q).map (fun l => l.id) := List.mem_map.mpr ⟨l, hl, hid⟩
      rw [List.map_append] at hnd1
      exact (List.nodup_append.mp hnd1).2.2 h1 h2
  rw [hpref] at hLbpref
  exact declutterFold_fst_mono _ _ q _ hLbpref

/-- C1 counterexample: two failure modes of the unrestricted claim.
With a negative screen width (label id 1, width `-1/5`), the covered
cell range is empty, so the label is never entered into the grid and
the later label id 2 sees no potential collision: both ids are returned
although their AABBs overlap under the code's own test.  With duplicate
ids (two labels with id 1), the label map resolves id 1 to the *later*
(far-away) label, so the overlap of the two co-located labels with ids
1 and 2 is missed and both ids are returned. -/
theorem declutter_overlap_counterexample :
    ((1 : ℤ) ∈ detectLabelVisibility
        [⟨1, ⟨0, 0, 0⟩, 0, -(1/5), 1/4⟩, ⟨2, ⟨0, 0, 0⟩, 0, 1/4, 1/4⟩] (fun _ _ => 0) ∧
     (2 : ℤ) ∈ detectLabelVisibility
        [⟨1, ⟨0, 0, 0⟩, 0, -(1/5), 1/4⟩, ⟨2, ⟨0, 0, 0⟩, 0, 1/4, 1/4⟩] (fun _ _ => 0) ∧
     checkLabelOverlap ⟨1, ⟨0, 0, 0⟩, 0, -(1/5), 1/4⟩ ⟨2, ⟨0, 0, 0⟩, 0, 1/4, 1/4⟩ = true) ∧
    ((1 : ℤ) ∈ detectLabelVisibility
        [⟨1, ⟨3/40, 3/40, 0⟩, 0, 1/10, 1/10⟩, ⟨2, ⟨3/40, 3/40, 0⟩, 0, 1/10, 1/10⟩,
         ⟨1, ⟨63/40, 63/40, 0⟩, 0, 1/10, 1/10⟩] (fun _ _ => 0) ∧
     (2 : ℤ) ∈ detectLabelVisibility
        [⟨1, ⟨3/40, 3/40, 0⟩, 0, 1/10, 1/10⟩, ⟨2, ⟨3/40, 3/40, 0⟩, 0, 1/10, 1/10⟩,
         ⟨1, ⟨63/40, 63/40, 0⟩, 0, 1/10, 1/10⟩] (fun _ _ => 0) ∧
     checkLabelOverlap ⟨1, ⟨3/40, 3/40, 0⟩, 0, 1/10, 1/10⟩
        ⟨2, ⟨3/40, 3/40, 0⟩, 0, 1/10, 1/10⟩ = true) := by
  have h1 : detectLabelVisibility
      [⟨1, ⟨0, 0, 0⟩, 0, -(1/5), 1/4⟩, ⟨2, ⟨0, 0, 0⟩, 0, 1/4, 1/4⟩]
      (fun _ _ => 0) = [1, 2] := by
    norm_num [detectLabelVisibility, List.mergeSort, declutterStep,
      getPotentialCollisions, getOccupiedCells, intRange, gridAdd, labelMapGet,
      checkLabelOverlap, List.foldl, List.flatMap, List.any, List.contains,
      List.range, List.range.loop, abs_lt]
  have h2 : detectLabelVisibility
      [⟨1, ⟨3/40, 3/40, 0⟩, 0, 1/10, 1/10⟩, ⟨2, ⟨3/40, 3/40, 0⟩, 0, 1/10, 1/10⟩,
       ⟨1, ⟨63/40, 63/40, 0⟩, 0, 1/10, 1/10⟩] (fun _ _ => 0) = [1, 2, 1] := by
    norm_num [detectLabelVisibility, List.mergeSort, declutterStep,
      getPotentialCollisions, getOccupiedCells, intRange, gridAdd, labelMapGet,
      checkLabelOverlap, List.foldl, List.flatMap, List.any, List.contains,
      List.range, List.range.loop, abs_lt]
  refine ⟨⟨?_, ?_, ?_⟩, ⟨?_, ?_, ?_⟩⟩
  · rw [h1]; simp
  · rw [h1]; simp
  · norm_num [checkLabelOverlap]
  · rw [h2]; simp
  · rw [h2]; simp
  · norm_num [checkLabelOverlap, abs_lt]

/-- Closed witness for `declutter_visible_no_overlap`: two well-formed,
far-apart labels are both visible and indeed do not overlap. -/
theorem declutter_visible_no_overlap_witness :
    (∀ l ∈ [(⟨1, ⟨3/40, 3/40, 0⟩, 0, 1/10, 1/10⟩ : ProjectedLabel),
        ⟨2, ⟨63/40, 63/40, 0⟩, 0, 1/10, 1/10⟩],
      0 ≤ l.screenWidth ∧ 0 ≤ l.screenHeight) ∧
    (([(⟨1, ⟨3/40, 3/40, 0⟩, 0, 1/10, 1/10⟩ : ProjectedLabel),
        ⟨2, ⟨63/40, 63/40, 0⟩, 0, 1/10, 1/10⟩].map (fun l => l.id)).Nodup) ∧
    (1 : ℤ) ∈ detectLabelVisibility
      [⟨1, ⟨3/40, 3/40, 0⟩, 0, 1/10, 1/10⟩, ⟨2, ⟨63/40, 63/40, 0⟩, 0, 1/10, 1/10⟩]
      (fun _ _ => 0) ∧
    (2 : ℤ) ∈ detectLabelVisibility
      [⟨1, ⟨3/40, 3/40, 0⟩, 0, 1/10, 1/10⟩, ⟨2, ⟨63/40, 63/40, 0⟩, 0, 1/10, 1/10⟩]
      (fun _ _ => 0) ∧
    checkLabelOverlap ⟨1, ⟨3/40, 3/40, 0⟩, 0, 1/10, 1/10⟩
      ⟨2, ⟨63/40, 63/40, 0⟩, 0, 1/10, 1/10⟩ = false := by
  have hd : detectLabelVisibility
      [(⟨1, ⟨3/40, 3/40, 0⟩, 0, 1/10, 1/10⟩ : ProjectedLabel),
       ⟨2, ⟨63/40, 63/40, 0⟩, 0, 1/10, 1/10⟩] (fun _ _ => 0) = [1, 2] := by
    norm_num [detectLabelVisibility, List.mergeSort, declutterStep,
      getPotentialCollisions, getOccupiedCells, intRange, gridAdd, labelMapGet,
      checkLabelOverlap, List.foldl, List.flatMap, List.any, List.contains,
      List.range, List.range.loop, abs_lt]
  refine ⟨by norm_num, by norm_num, ?_, ?_, ?_⟩
  · rw [hd]; simp
  · rw [hd]; simp
  · exact declutter_visible_no_overlap
      [⟨1, ⟨3/40, 3/40, 0⟩, 0, 1/10, 1/10⟩, ⟨2, ⟨63/40, 63/40, 0⟩, 0, 1/10, 1/10⟩]
      (fun _ _ => 0) (by norm_num) (by norm_num)
      ⟨1, ⟨3/40, 3/40, 0⟩, 0, 1/10, 1/10⟩ ⟨2, ⟨63/40, 63/40, 0⟩, 0, 1/10, 1/10⟩
      (by simp) (by simp) (by rw [hd]; simp) (by rw [hd]; simp) (by norm_num)

/-- C8 counterexample: with duplicate ids the claim fails.  Labels with
ids `1, 2` sit at the same spot; a third, far-away label reuses id `1`
and sorts last (lowest priority).  On the full input the label map
resolves id `1` to the far label, so id `2` is (wrongly) kept; removing
the lowest-priority label makes id `2` disappear from the output even
though every kept label had higher priority than the removed one. -/
theorem declutter_monotonicity_counterexample :
    List.mergeSort
      [(⟨1, ⟨3/40, 3/40, 0⟩, 0, 1/10, 1/10⟩ : ProjectedLabel),
       ⟨2, ⟨3/40, 3/40, 0⟩, 0, 1/10, 1/10⟩, ⟨1, ⟨63/40, 63/40, 0⟩, 0, 1/10, 1/10⟩]
      (fun a b => decide ((fun (_ _ : ProjectedLabel) => (0 : ℤ)) a b ≤ 0)) =
      [⟨1, ⟨3/40, 3/40, 0⟩, 0, 1/10, 1/10⟩, ⟨2, ⟨3/40, 3/40, 0⟩, 0, 1/10, 1/10⟩,
       ⟨1, ⟨63/40, 63/40, 0⟩, 0, 1/10, 1/10⟩] ∧
    List.mergeSort
      [(⟨1, ⟨3/40, 3/40, 0⟩, 0, 1/10, 1/10⟩ : ProjectedLabel),
       ⟨2, ⟨3/40, 3/40, 0⟩, 0, 1/10, 1/10⟩]
      (fun a b => decide ((fun (_ _ : ProjectedLabel) => (0 : ℤ)) a b ≤ 0)) =
      [⟨1, ⟨3/40, 3/40, 0⟩, 0, 1/10, 1/10⟩, ⟨2, ⟨3/40, 3/40, 0⟩, 0, 1/10, 1/10⟩] ∧
    (2 : ℤ) ∈ detectLabelVisibility
      [⟨1, ⟨3/40, 3/40, 0⟩, 0, 1/10, 1/10⟩, ⟨2, ⟨3/40, 3/40, 0⟩, 0, 1/10, 1/10⟩,
       ⟨1, ⟨63/40, 63/40, 0⟩, 0, 1/10, 1/10⟩] (fun _ _ => 0) ∧
    (2 : ℤ) ∉ detectLabelVisibility
      [⟨1, ⟨3/40, 3/40, 0⟩, 0, 1/10, 1/10⟩, ⟨2, ⟨3/40, 3/40, 0⟩, 0, 1/10, 1/10⟩]
      (fun _ _ => 0) := by
  have h2 : detectLabelVisibility
      [(⟨1, ⟨3/40, 3/40, 0⟩, 0, 1/10, 1/10⟩ : ProjectedLabel),
       ⟨2, ⟨3/40, 3/40, 0⟩, 0, 1/10, 1/10⟩,
       ⟨1, ⟨63/40, 63/40, 0⟩, 0, 1/10, 1/10⟩] (fun _ _ => 0) = [1, 2, 1] := by
    norm_num [detectLabelVisibility, List.mergeSort, declutterStep,
      getPotentialCollisions, getOccupiedCells, intRange, gridAdd, labelMapGet,
      checkLabelOverlap, List.foldl, List.flatMap, List.any, List.contains,
      List.range, List.range.loop, abs_lt]
  have h3 : detectLabelVisibility
      [(⟨1, ⟨3/40, 3/40, 0⟩, 0, 1/10, 1/10⟩ : ProjectedLabel),
       ⟨2, ⟨3/40, 3/40, 0⟩, 0, 1/10, 1/10⟩] (fun _ _ => 0) = [1] := by
    norm_num [detectLabelVisibility, List.mergeSort, declutterStep,
      getPotentialCollisions, getOccupiedCells, intRange, gridAdd, labelMapGet,
      checkLabelOverlap, List.foldl, List.flatMap, List.any, List.contains,
      List.range, List.range.loop, abs_lt]
  refine ⟨?_, ?_, ?_, ?_⟩
  · norm_num [List.mergeSort]
  · norm_num [List.mergeSort]
  · rw [h2]; simp
  · rw [h3]; simp

/-- Closed witness for `declutter_prefix_monotone`: removing the
lowest-priority (far) label keeps the first label visible. -/
theorem declutter_prefix_monotone_witness :
    (([(⟨1, ⟨3/40, 3/40, 0⟩, 0, 1/10, 1/10⟩ : ProjectedLabel),
        ⟨3, ⟨63/40, 63/40, 0⟩, 0, 1/10, 1/10⟩].map (fun l => l.id)).Nodup) ∧
    List.mergeSort
      [(⟨1, ⟨3/40, 3/40, 0⟩, 0, 1/10, 1/10⟩ : ProjectedLabel),
       ⟨3, ⟨63/40, 63/40, 0⟩, 0, 1/10, 1/10⟩]
      (fun a b => decide ((fun (_ _ : ProjectedLabel) => (0 : ℤ)) a b ≤ 0)) =
      [⟨1, ⟨3/40, 3/40, 0⟩, 0, 1/10, 1/10⟩] ++
        ⟨3, ⟨63/40, 63/40, 0⟩, 0, 1/10, 1/10⟩ :: [] ∧
    List.mergeSort [(⟨1, ⟨3/40, 3/40, 0⟩, 0, 1/10, 1/10⟩ : ProjectedLabel)]
      (fun a b => decide ((fun (_ _ : ProjectedLabel) => (0 : ℤ)) a b ≤ 0)) =
      [⟨1, ⟨3/40, 3/40, 0⟩, 0, 1/10, 1/10⟩] ++ [] ∧
    (⟨1, ⟨3/40, 3/40, 0⟩, 0, 1/10, 1/10⟩ : ProjectedLabel) ∈
      [(⟨1, ⟨3/40, 3/40, 0⟩, 0, 1/10, 1/10⟩ : ProjectedLabel)] ∧
    (1 : ℤ) ∈ detectLabelVisibility
      [⟨1, ⟨3/40, 3/40, 0⟩, 0, 1/10, 1/10⟩, ⟨3, ⟨63/40, 63/40, 0⟩, 0, 1/10, 1/10⟩]
      (fun _ _ => 0) ∧
    (1 : ℤ) ∈ detectLabelVisibility
      [⟨1, ⟨3/40, 3/40, 0⟩, 0, 1/10, 1/10⟩] (fun _ _ => 0) := by
  have hvis : (1 : ℤ) ∈ detectLabelVisibility
      [(⟨1, ⟨3/40, 3/40, 0⟩, 0, 1/10, 1/10⟩ : ProjectedLabel),
       ⟨3, ⟨63/40, 63/40, 0⟩, 0, 1/10, 1/10⟩] (fun _ _ => 0) := by
    have hd : detectLabelVisibility
        [(⟨1, ⟨3/40, 3/40, 0⟩, 0, 1/10, 1/10⟩ : ProjectedLabel),
         ⟨3, ⟨63/40, 63/40, 0⟩, 0, 1/10, 1/10⟩] (fun _ _ => 0) = [1, 3] := by
      norm_num [detectLabelVisibility, List.mergeSort, declutterStep,
        getPotentialCollisions, getOccupiedCells, intRange, gridAdd, labelMapGet,
        checkLabelOverlap, List.foldl, List.flatMap, List.any, List.contains,
        List.range, List.range.loop, abs_lt]
    rw [hd]
    simp
  refine ⟨by norm_num, by norm_num [List.mergeSort], by norm_num [List.mergeSort],
    by simp, hvis, ?_⟩
  exact declutter_prefix_monotone
    [⟨1, ⟨3/40, 3/40, 0⟩, 0, 1/10, 1/10⟩, ⟨3, ⟨63/40, 63/40, 0⟩, 0, 1/10, 1/10⟩]
    [⟨1, ⟨3/40, 3/40, 0⟩, 0, 1/10, 1/10⟩] (fun _ _ => 0)
    ⟨3, ⟨63/40, 63/40, 0⟩, 0, 1/10, 1/10⟩ ⟨1, ⟨3/40, 3/40, 0⟩, 0, 1/10, 1/10⟩
    [⟨1, ⟨3/40, 3/40, 0⟩, 0, 1/10, 1/10⟩] []
    (by norm_num) (by norm_num [List.mergeSort]) (by norm_num [List.mergeSort])
    (by simp) hvis
